import Mathlib

/-!
Verification development for the ToDOCX converter core.

The definitions below are a shallow embedding of the Python sources
`src/latex_analyzer.py`, `src/latex_formatter.py`, `src/docx_analyzer.py`,
`src/formatter.py` and `src/config.py`.  Strings are handled as `List Char`
(Python indexes and slices strings by code point, which matches `List Char`
exactly); the regular expressions used by the source are embedded as explicit
left-to-right scanners with the same leftmost-match, greedy-with-backtracking
semantics on the character classes the source uses.  `re` substitutions are
embedded as fueled scanners (`applySub`); each successful match consumes at
least one character, so a fuel equal to the input length never runs out and
the fueled function agrees with the unfueled Python semantics on every input.
Python floats are modelled as rationals; the only float operations the
embedded code performs are additions/multiplications of small decimal
constants, for which rational arithmetic is exact.
-/

namespace ToDocx

/-- Whitespace test matching Python `str.strip` and regex `\s` on ASCII input. -/
def isWs (c : Char) : Bool :=
  c = ' ' || c = '\t' || c = '\n' || c = '\r' || c = '\x0b' || c = '\x0c'

/-- Drop leading whitespace, as Python `lstrip`. -/
def dropWs (l : List Char) : List Char := l.dropWhile isWs

/-- Trim both ends, as Python `str.strip()`. -/
def trimL (l : List Char) : List Char := dropWs ((dropWs l.reverse).reverse)

/-- Boolean list-prefix test (`str.startswith`). -/
def isPrefixL : List Char → List Char → Bool
  | [], _ => true
  | _ :: _, [] => false
  | p :: ps, c :: cs => p = c && isPrefixL ps cs

/-- Substring containment, Python `pat in s`. -/
def containsL (pat : List Char) : List Char → Bool
  | [] => isPrefixL pat []
  | c :: rest => isPrefixL pat (c :: rest) || containsL pat rest

/-- Regex `\w` on ASCII input: letters, digits and underscore. -/
def isWordChar (c : Char) : Bool := c.isAlphanum || c = '_'

/-- Split at the first occurrence of `c`: `some (before, after)`, or `none`
when `c` does not occur.  This is how a greedy `[^c]*` followed by `c`
matches. -/
def splitAtChar (c : Char) : List Char → Option (List Char × List Char)
  | [] => none
  | x :: rest =>
    if x = c then some ([], rest)
    else
      match splitAtChar c rest with
      | some (a, b) => some (x :: a, b)
      | none => none

/-- Like `splitAtChar` but the scan fails on a newline: this is `.*?` followed
by `c` without `re.DOTALL`. -/
def splitAtCharNoNL (c : Char) : List Char → Option (List Char × List Char)
  | [] => none
  | x :: rest =>
    if x = c then some ([], rest)
    else if x = '\n' then none
    else
      match splitAtCharNoNL c rest with
      | some (a, b) => some (x :: a, b)
      | none => none

/-- Characters of the literal `\begin{`. -/
def beginTok : List Char := "\\begin\x7b".data

/-- Characters of the literal `\end{`. -/
def endTok : List Char := "\\end\x7b".data

/-- Parse `\w+\*?` followed by `}` at the head of the list, returning the
environment name.  This is the group of `re.match(r'\\begin\{(\w+\*?)\}', s)`
after the leading keyword. -/
def parseEnvName (l : List Char) : Option String :=
  let p := l.span isWordChar
  if p.1.isEmpty then none
  else
    match p.2 with
    | '*' :: '\x7d' :: _ => some (String.mk (p.1 ++ ['*']))
    | '\x7d' :: _ => some (String.mk p.1)
    | _ => none

/-- Embedding of `re.match(r'\\begin\{(\w+\*?)\}', stripped)`. -/
def parseEnvBegin (stripped : List Char) : Option String :=
  if isPrefixL beginTok stripped then parseEnvName (stripped.drop beginTok.length) else none

/-- Embedding of `re.match(r'\\end\{(\w+\*?)\}', stripped)`. -/
def parseEnvEnd (stripped : List Char) : Option String :=
  if isPrefixL endTok stripped then parseEnvName (stripped.drop endTok.length) else none

/-- One pass of `re.sub`: scan left to right, replace non-overlapping matches
of the matcher `m`, which returns `(replacement, remainder)` and always
consumes at least one character.  The fuel argument bounds the number of
steps; callers pass the input length, which always suffices. -/
def applySub (m : List Char → Option (List Char × List Char)) : Nat → List Char → List Char
  | 0, l => l
  | _ + 1, [] => []
  | fuel + 1, c :: rest =>
    match m (c :: rest) with
    | some (repl, rem) => repl ++ applySub m fuel rem
    | none => c :: applySub m fuel rest

/-- Run a substitution over the whole list. -/
def runSub (m : List Char → Option (List Char × List Char)) (l : List Char) : List Char :=
  applySub m l.length l

/-- Matcher for `\\[a-zA-Z]+`, removed. -/
def mCmdName (l : List Char) : Option (List Char × List Char) :=
  match l with
  | '\\' :: rest =>
    let p := rest.span Char.isAlpha
    if p.1.isEmpty then none else some ([], p.2)
  | _ => none

/-- Matcher for `\[[^\]]*\]`, removed. -/
def mBracketGroup (l : List Char) : Option (List Char × List Char) :=
  match l with
  | '[' :: rest =>
    match splitAtChar ']' rest with
    | some (_, after) => some ([], after)
    | none => none
  | _ => none

/-- Matcher for `\{([^}]*)\}`, replaced by the group. -/
def mUnbrace (l : List Char) : Option (List Char × List Char) :=
  match l with
  | '\x7b' :: rest =>
    match splitAtChar '\x7d' rest with
    | some (content, after) => some (content, after)
    | none => none
  | _ => none

/-- The `SKIP_COMMANDS` set of `LatexAnalyzer`, in source order. -/
def skipCommands : List String :=
  ["\\setlength", "\\newcommand", "\\renewcommand", "\\newenvironment",
   "\\def", "\\let", "\\makeatletter", "\\makeatother",
   "\\pagestyle", "\\thispagestyle", "\\pagenumbering",
   "\\setcounter", "\\addtocounter", "\\stepcounter",
   "\\bibliographystyle", "\\bibliography", "\\printbibliography",
   "\\tableofcontents", "\\listoffigures", "\\listoftables",
   "\\maketitle", "\\title", "\\author", "\\date",
   "\\usepackage", "\\RequirePackage", "\\documentclass",
   "\\input", "\\include", "\\includeonly",
   "\\newpage", "\\clearpage", "\\cleardoublepage",
   "\\vspace", "\\hspace", "\\vfill", "\\hfill",
   "\\centering", "\\raggedleft", "\\raggedright",
   "\\small", "\\large", "\\Large", "\\LARGE", "\\huge", "\\Huge",
   "\\normalsize", "\\footnotesize", "\\scriptsize", "\\tiny",
   "\\textwidth", "\\linewidth", "\\columnwidth",
   "\\label", "\\ref", "\\pageref", "\\eqref",
   "\\nocite", "\\phantom", "\\hphantom", "\\vphantom"]

/-- Full-line match of `^\\[a-zA-Z]+\s*$`. -/
def matchesCmdOnly (l : List Char) : Bool :=
  match l with
  | '\\' :: rest =>
    let p := rest.span Char.isAlpha
    !p.1.isEmpty && p.2.all isWs
  | _ => false

/-- Consume an optional `\[[^\]]*\]` group at the head (greedy, as the regex). -/
def skipBracketOpt (l : List Char) : List Char :=
  match l with
  | '[' :: rest =>
    match splitAtChar ']' rest with
    | some (_, after) => after
    | none => l
  | _ => l

/-- Consume an optional `\{[^}]*\}` group at the head (greedy, as the regex). -/
def skipBraceOpt (l : List Char) : List Char :=
  match l with
  | '\x7b' :: rest =>
    match splitAtChar '\x7d' rest with
    | some (_, after) => after
    | none => l
  | _ => l

/-- Full-line match of `^\\[a-zA-Z]+(\[[^\]]*\])?(\{[^}]*\})?\s*$`. -/
def matchesCmdArgOnly (l : List Char) : Bool :=
  match l with
  | '\\' :: rest =>
    let p := rest.span Char.isAlpha
    if p.1.isEmpty then false
    else (skipBraceOpt (skipBracketOpt p.2)).all isWs
  | _ => false

/-- Global `re.sub(r'\\[a-zA-Z]+', '', line)`. -/
def removeCmdNames (l : List Char) : List Char := runSub mCmdName l

/-- Global `re.sub(r'\[[^\]]*\]', '', line)`. -/
def removeBracketGroups (l : List Char) : List Char := runSub mBracketGroup l

/-- Global `re.sub(r'\{([^}]*)\}', r'\1', line)`. -/
def unbraceGroups (l : List Char) : List Char := runSub mUnbrace l

/-- Embedding of `LatexAnalyzer._is_skip_command` (applied to a stripped line). -/
def isSkipCommand (l : List Char) : Bool :=
  skipCommands.any (fun c => isPrefixL c.data l)
  || matchesCmdOnly l
  || (matchesCmdArgOnly l
      && (trimL (unbraceGroups (removeBracketGroups (removeCmdNames l)))).isEmpty)

/-- Matcher for `\\[a-zA-Z]+\*?(\[[^\]]*\])?(\{[^}]*\})?`, removed. -/
def mCmdFull (l : List Char) : Option (List Char × List Char) :=
  match l with
  | '\\' :: rest =>
    let p := rest.span Char.isAlpha
    if p.1.isEmpty then none
    else
      let r1 := match p.2 with
        | '*' :: t => t
        | t => t
      some ([], skipBraceOpt (skipBracketOpt r1))
  | _ => none

/-- Embedding of `LatexAnalyzer._has_text_content`. -/
def hasTextContent (l : List Char) : Bool :=
  let t := runSub mCmdFull l
  let t := t.filter (fun c => !(c = '\x7b' || c = '\x7d' || c = '$'))
  !(trimL t).isEmpty

/-- Capture a `\{([^}]*)\}` group at the head: `some (group, remainder)`. -/
def braceCapture (l : List Char) : Option (List Char × List Char) :=
  match l with
  | '\x7b' :: rest => splitAtChar '\x7d' rest
  | _ => none

/-- Try an alternation of command names, each followed by an optional star
(when `allowStar`) and a mandatory brace group; alternatives are tried in
order, exactly as regex backtracking does. -/
def tryNamesArg (names : List String) (allowStar : Bool) (rest : List Char) :
    Option (List Char × List Char) :=
  match names with
  | [] => none
  | n :: ns =>
    if isPrefixL n.data rest then
      let after := rest.drop n.data.length
      let after2 := if allowStar then (match after with | '*' :: t => t | t => t) else after
      match braceCapture after2 with
      | some (content, rem) => some (content, rem)
      | none => tryNamesArg ns allowStar rest
    else tryNamesArg ns allowStar rest

/-- Matcher for `\\(?:n1|n2|...)\*?\{([^}]*)\}`, replaced by `repl` applied
to the captured group. -/
def mCmdArgNames (names : List String) (allowStar : Bool)
    (repl : List Char → List Char) (l : List Char) : Option (List Char × List Char) :=
  match l with
  | '\\' :: rest =>
    match tryNamesArg names allowStar rest with
    | some (content, rem) => some (repl content, rem)
    | none => none
  | _ => none

/-- Matcher for `\\begin\{\w+\}` (no star), removed. -/
def mBeginEnvPlain (l : List Char) : Option (List Char × List Char) :=
  if isPrefixL beginTok l then
    let rest := l.drop beginTok.length
    let p := rest.span isWordChar
    if p.1.isEmpty then none
    else
      match p.2 with
      | '\x7d' :: rem => some ([], rem)
      | _ => none
  else none

/-- Matcher for `\\end\{\w+\}` (no star), removed. -/
def mEndEnvPlain (l : List Char) : Option (List Char × List Char) :=
  if isPrefixL endTok l then
    let rest := l.drop endTok.length
    let p := rest.span isWordChar
    if p.1.isEmpty then none
    else
      match p.2 with
      | '\x7d' :: rem => some ([], rem)
      | _ => none
  else none

/-- Matcher for `\\begin\{\w+\*?\}(\[.*?\])?` (no DOTALL on the bracket),
removed. -/
def mBeginEnvStarBracket (l : List Char) : Option (List Char × List Char) :=
  if isPrefixL beginTok l then
    let rest := l.drop beginTok.length
    let p := rest.span isWordChar
    if p.1.isEmpty then none
    else
      let afterStar := match p.2 with | '*' :: t => t | t => t
      match afterStar with
      | '\x7d' :: rem =>
        let rem2 := match rem with
          | '[' :: t =>
            (match splitAtCharNoNL ']' t with
             | some (_, after) => after
             | none => rem)
          | _ => rem
        some ([], rem2)
      | _ => none
  else none

/-- Matcher for `\\end\{\w+\*?\}`, removed. -/
def mEndEnvStar (l : List Char) : Option (List Char × List Char) :=
  if isPrefixL endTok l then
    let rest := l.drop endTok.length
    let p := rest.span isWordChar
    if p.1.isEmpty then none
    else
      let afterStar := match p.2 with | '*' :: t => t | t => t
      match afterStar with
      | '\x7d' :: rem => some ([], rem)
      | _ => none
  else none

/-- Count of leading `sub` repetitions, the greedy maximum of `(?:sub)*`. -/
def countSubReps : List Char → Nat
  | 's' :: 'u' :: 'b' :: t => countSubReps t + 1
  | _ => 0

/-- Backtracking over the repetition count of `(?:sub)*`, greedy (largest
first), each time trying `(?:section|chapter|paragraph)\*?\{([^}]*)\}`. -/
def tryHeadAtSubs (r : List Char) : Nat → Option (List Char × List Char)
  | 0 => tryNamesArg ["section", "chapter", "paragraph"] true r
  | k + 1 =>
    match tryNamesArg ["section", "chapter", "paragraph"] true (r.drop (3 * (k + 1))) with
    | some res => some res
    | none => tryHeadAtSubs r k

/-- Matcher for `\\(?:sub)*(?:section|chapter|paragraph)\*?\{([^}]*)\}`,
yielding the captured group and the remainder. -/
def mHeadingArg (l : List Char) : Option (List Char × List Char) :=
  match l with
  | '\\' :: rest => tryHeadAtSubs rest (countSubReps rest)
  | _ => none

/-- `re.search` for the heading pattern: first match anywhere, group 1. -/
def searchHeadingArg : List Char → Option (List Char)
  | [] => none
  | c :: rest =>
    match mHeadingArg (c :: rest) with
    | some (content, _) => some content
    | none => searchHeadingArg rest

/-- Characters of the literal `\caption{`. -/
def captionTok : List Char := "\\caption\x7b".data

/-- `re.search(r'\\caption\{([^}]*)\}', raw)`, group 1. -/
def searchCaptionArg : List Char → Option (List Char)
  | [] => none
  | c :: rest =>
    if isPrefixL captionTok (c :: rest) then
      match splitAtChar '\x7d' ((c :: rest).drop captionTok.length) with
      | some (content, _) => some content
      | none => searchCaptionArg rest
    else searchCaptionArg rest

/-- Matcher for `\\\w+` (word chars, so digits and underscore too), removed. -/
def mCmdWord (l : List Char) : Option (List Char × List Char) :=
  match l with
  | '\\' :: rest =>
    let p := rest.span isWordChar
    if p.1.isEmpty then none else some ([], p.2)
  | _ => none

/-- Matcher for `\s+`, replaced by one space. -/
def mWsRun (l : List Char) : Option (List Char × List Char) :=
  match l with
  | c :: rest => if isWs c then some ([' '], rest.dropWhile isWs) else none
  | [] => none

/-- Remove every `{` and `}` character (`re.sub(r'\{|\}', '', t)` and
`re.sub(r'[{}]', '', t)`). -/
def stripBraces (l : List Char) : List Char :=
  l.filter (fun c => !(c = '\x7b' || c = '\x7d'))

/-- Embedding of `LatexAnalyzer._clean_latex` (its chain of `re.sub` passes,
then whitespace collapsing and strip). -/
def cleanLatexL (l : List Char) : List Char :=
  let t := runSub (mCmdArgNames ["textbf", "textit", "emph", "underline"] false id) l
  let t := runSub (mCmdArgNames ["section", "subsection", "subsubsection", "chapter", "paragraph"] true id) t
  let t := runSub mBeginEnvPlain t
  let t := runSub mEndEnvPlain t
  let t := runSub (mCmdArgNames ["caption"] false id) t
  let t := runSub (mCmdArgNames ["label"] false (fun _ => ([] : List Char))) t
  let t := runSub (mCmdArgNames ["ref"] false (fun _ => "[ref]".data)) t
  let t := runSub (mCmdArgNames ["cite"] false (fun _ => "[cite]".data)) t
  let t := runSub mCmdWord t
  let t := stripBraces t
  let t := runSub mWsRun t
  trimL t

/-- String wrapper for `_clean_latex`. -/
def cleanLatex (s : String) : String := String.mk (cleanLatexL s.data)

/-- Characters of the literal `\item`. -/
def itemTok : List Char := "\\item".data

/-- Matcher for `\\item\s*(\[[^\]]*\])?\s*`, removed. -/
def mItem (l : List Char) : Option (List Char × List Char) :=
  if isPrefixL itemTok l then
    let r := (l.drop itemTok.length).dropWhile isWs
    some ([], (skipBracketOpt r).dropWhile isWs)
  else none

/-- Try an alternation of plain command names with a `\b` word boundary after
each, in order. -/
def tryNamesWordB (names : List String) (rest : List Char) : Option (List Char) :=
  match names with
  | [] => none
  | n :: ns =>
    if isPrefixL n.data rest then
      let after := rest.drop n.data.length
      match after with
      | [] => some after
      | c :: _ => if isWordChar c then tryNamesWordB ns rest else some after
    else tryNamesWordB ns rest

/-- Matcher for `\\(?:n1|n2|...)\b`, removed. -/
def mCmdWordB (names : List String) (l : List Char) : Option (List Char × List Char) :=
  match l with
  | '\\' :: rest =>
    match tryNamesWordB names rest with
    | some rem => some ([], rem)
    | none => none
  | _ => none

/-- Matcher for `\\[a-zA-Z]+\*?(\{[^}]*\})?`, removed. -/
def mCmdOptBrace (l : List Char) : Option (List Char × List Char) :=
  match l with
  | '\\' :: rest =>
    let p := rest.span Char.isAlpha
    if p.1.isEmpty then none
    else
      let r := match p.2 with | '*' :: t => t | t => t
      some ([], skipBraceOpt r)
  | _ => none

/-- Characters of the literal `\href{`. -/
def hrefTok : List Char := "\\href\x7b".data

/-- Matcher for `\\href\{([^}]*)\}\{([^}]*)\}`, replaced by `\2 (\1)`. -/
def mHref (l : List Char) : Option (List Char × List Char) :=
  if isPrefixL hrefTok l then
    match splitAtChar '\x7d' (l.drop hrefTok.length) with
    | some (g1, r1) =>
      match r1 with
      | '\x7b' :: r2 =>
        (match splitAtChar '\x7d' r2 with
         | some (g2, rem) => some (g2 ++ " (".data ++ g1 ++ ")".data, rem)
         | none => none)
      | _ => none
    | none => none
  else none

/-- Matcher for a literal string, replaced by another (Python `str.replace`). -/
def mLit (pat repl : List Char) (l : List Char) : Option (List Char × List Char) :=
  if pat.isEmpty then none
  else if isPrefixL pat l then some (repl, l.drop pat.length) else none

/-- Embedding of `_unescape_latex`: the chain of `str.replace` calls, in
source order. -/
def unescapeLatexL (l : List Char) : List Char :=
  let t := runSub (mLit "\\_".data "_".data) l
  let t := runSub (mLit "\\%".data "%".data) t
  let t := runSub (mLit "\\&".data "&".data) t
  let t := runSub (mLit "\\#".data "#".data) t
  let t := runSub (mLit "\\~".data "~".data) t
  let t := runSub (mLit "\\^".data "^".data) t
  let t := runSub (mLit "\\\x7b".data "\x7b".data) t
  let t := runSub (mLit "\\\x7d".data "\x7d".data) t
  let t := runSub (mLit "\\$".data "$".data) t
  t

/-- Embedding of `LatexToDocxConverter._clean_latex_for_docx`. -/
def cleanLatexForDocxL (l : List Char) : List Char :=
  let t := runSub mBeginEnvStarBracket l
  let t := runSub mEndEnvStar t
  let t := runSub mHeadingArg t
  let t := runSub (mCmdArgNames ["url"] false id) t
  let t := runSub mHref t
  let t := runSub (mCmdArgNames ["textbf", "textit", "emph", "underline", "textrm", "textsf", "texttt"] false id) t
  let t := runSub (mCmdArgNames ["caption"] false id) t
  let t := runSub mItem t
  let t := runSub (mCmdArgNames ["label"] false (fun _ => ([] : List Char))) t
  let t := runSub (mCmdArgNames ["ref"] false (fun _ => "[ref]".data)) t
  let t := runSub (mCmdArgNames ["cite"] false (fun _ => "[cite]".data)) t
  let t := runSub (mCmdWordB ["centering", "raggedright", "raggedleft", "noindent", "par"]) t
  let t := runSub (mCmdArgNames ["vspace", "hspace"] true (fun _ => ([] : List Char))) t
  let t := runSub (mCmdWordB ["small", "large", "Large", "LARGE", "huge", "Huge", "tiny", "footnotesize", "scriptsize", "normalsize"]) t
  let t := runSub mCmdOptBrace t
  let t := stripBraces t
  let t := unescapeLatexL t
  let t := runSub mWsRun t
  trimL t

/-- String wrapper for `_clean_latex_for_docx`. -/
def cleanLatexForDocx (s : String) : String := String.mk (cleanLatexForDocxL s.data)

/-- `HEADING_COMMANDS` of `LatexAnalyzer`, in dict insertion order. -/
def headingCommands : List (String × String) :=
  [("\\chapter", "heading1"), ("\\section", "heading1"),
   ("\\subsection", "heading2"), ("\\subsubsection", "heading3"),
   ("\\paragraph", "heading4"), ("\\subparagraph", "heading4")]

/-- `CONTENT_ENVIRONMENTS`. -/
def contentEnvironments : List (String × String) :=
  [("abstract", "quote"), ("quote", "quote"), ("quotation", "quote")]

/-- `FIGURE_ENVIRONMENTS`. -/
def figureEnvironments : List String := ["figure"]

/-- `TABLE_ENVIRONMENTS`. -/
def tableEnvironments : List String := ["table"]

/-- `CODE_ENVIRONMENTS`. -/
def codeEnvironments : List String := ["verbatim", "lstlisting", "minted", "listing"]

/-- `LIST_ENVIRONMENTS`. -/
def listEnvironments : List String := ["itemize", "enumerate", "description"]

/-- `FORMULA_ENVIRONMENTS`. -/
def formulaEnvironments : List String :=
  ["equation", "equation*", "align", "align*", "gather", "gather*", "multline", "multline*"]

/-- `SKIP_ENVIRONMENTS`. -/
def skipEnvironments : List String := ["tikzpicture", "pgfpicture", "titlepage"]

/-- `TRANSPARENT_ENVIRONMENTS`. -/
def transparentEnvironments : List String :=
  ["center", "flushleft", "flushright", "minipage", "tabular", "tabular*", "longtable"]

/-- Embedding of `LatexParagraphInfo`. -/
structure LatexPara where
  index : Nat
  text : String
  rawText : String
  lineStart : Nat
  lineEnd : Nat
  elementType : String
  originalType : String
deriving DecidableEq

instance : Inhabited LatexPara := ⟨⟨0, "", "", 0, 0, "", ""⟩⟩

/-- Python `content.split('\n')` helper. -/
def splitNLAux : List Char → List Char → List String
  | [], cur => [String.mk cur.reverse]
  | '\n' :: rest, cur => String.mk cur.reverse :: splitNLAux rest []
  | c :: rest, cur => splitNLAux rest (c :: cur)

/-- Python `content.split('\n')`. -/
def splitNL (s : String) : List String := splitNLAux s.data []

/-- Python `'\n'.join(lines)`. -/
def joinNL : List String → String
  | [] => ""
  | [s] => s
  | s :: rest => String.mk (s.data ++ '\n' :: (joinNL rest).data)

/-- Python `' '.join(lines)`. -/
def joinSpace : List String → String
  | [] => ""
  | [s] => s
  | s :: rest => String.mk (s.data ++ ' ' :: (joinSpace rest).data)

/-- Python string slicing `s[:n]`. -/
def takeStr (n : Nat) (s : String) : String := String.mk (s.data.take n)

/-- Embedding of `LatexAnalyzer._add_paragraph`: returns the updated index
and the emitted blocks (zero or one). -/
def addParagraph (idx : Nat) (lines : List String) (s e : Nat) : Nat × List LatexPara :=
  let raw := joinNL lines
  let display := cleanLatex raw
  if (trimL display.data).isEmpty then (idx, [])
  else (idx + 1, [⟨idx, takeStr 100 display, raw, s, e, "body", "body"⟩])

/-- Embedding of `LatexAnalyzer._add_heading_paragraph`. -/
def addHeadingParagraph (idx : Nat) (line : String) (lineNum : Nat) (cmd : String) :
    Nat × List LatexPara :=
  let display := match searchHeadingArg line.data with
    | some content => String.mk content
    | none => cleanLatex line
  let etype := (headingCommands.lookup cmd).getD "heading1"
  (idx + 1, [⟨idx, takeStr 100 display, line, lineNum, lineNum, etype, etype⟩])

/-- Embedding of `LatexAnalyzer._add_list_item`. -/
def addListItem (idx : Nat) (lines : List String) (startLine : Nat) : Nat × List LatexPara :=
  let raw := joinNL lines
  let display := cleanLatex (String.mk (runSub mItem raw.data))
  if (trimL display.data).isEmpty then (idx, [])
  else
    (idx + 1,
     [⟨idx, takeStr 100 display, raw, startLine, startLine + lines.length - 1, "body", "body"⟩])

/-- `re.search(r'caption=([^,\]]+)', raw)`, group 1. -/
def searchCodeCaption : List Char → Option (List Char)
  | [] => none
  | c :: rest =>
    if isPrefixL "caption=".data (c :: rest) then
      let p := ((c :: rest).drop 8).span (fun ch => !(ch = ',' || ch = ']'))
      if p.1.isEmpty then searchCodeCaption rest else some p.1
    else searchCodeCaption rest

/-- The `\item` loop of `_process_environment` for list environments. -/
def processList (idx : Nat) (content : List (Nat × String)) (cur : List String) (istart : Nat) :
    Nat × List LatexPara :=
  match content with
  | [] => if cur.isEmpty then (idx, []) else addListItem idx cur istart
  | (ln, line) :: rest =>
    if isPrefixL itemTok (trimL line.data) then
      let r1 := if cur.isEmpty then (idx, ([] : List LatexPara)) else addListItem idx cur istart
      let r2 := processList r1.1 rest [line] ln
      (r2.1, r1.2 ++ r2.2)
    else if cur.isEmpty then processList idx rest cur istart
    else processList idx rest (cur ++ [line]) istart

/-- Embedding of `LatexAnalyzer._process_environment`. -/
def processEnvironment (idx : Nat) (name : String) (s e : Nat)
    (content : List (Nat × String)) : Nat × List LatexPara :=
  if listEnvironments.contains name then processList idx content [] s
  else if tableEnvironments.contains name then
    let raw := joinNL (content.map (fun p => p.2))
    let display := match searchCaptionArg raw.data with
      | some cap => "[表格] ".data ++ cap
      | none => "[表格]".data
    (idx + 1, [⟨idx, takeStr 100 (String.mk display), raw, s, e, "table", "table"⟩])
  else if figureEnvironments.contains name then
    let raw := joinNL (content.map (fun p => p.2))
    match searchCaptionArg raw.data with
    | some cap =>
      (idx + 1,
       [⟨idx, takeStr 100 (String.mk ("[图片] ".data ++ cap)), raw, s, e, "caption", "caption"⟩])
    | none => (idx, [])
  else if codeEnvironments.contains name then
    let raw := joinNL (content.map (fun p => p.2))
    let display := match searchCodeCaption raw.data with
      | some cap => "[代码] ".data ++ cap
      | none =>
        let codeLines := (((content.drop 1).dropLast).map (fun p => p.2)).filter
          (fun ln => !(trimL ln.data).isEmpty)
        let preview := (joinSpace ((codeLines.take 2).map (fun ln => String.mk (trimL ln.data)))).data.take 50
        "[代码] ".data ++ preview ++ "...".data
    (idx + 1, [⟨idx, takeStr 100 (String.mk display), raw, s, e, "code", "code"⟩])
  else if formulaEnvironments.contains name then
    let raw := joinNL (content.map (fun p => p.2))
    let flines := (((content.drop 1).dropLast).map (fun p => trimL p.2.data)).filter
      (fun t => !t.isEmpty)
    let preview := (joinSpace (flines.map String.mk)).data.take 50
    let display := "[公式] ".data ++ preview ++ "...".data
    (idx + 1, [⟨idx, takeStr 100 (String.mk display), raw, s, e, "formula", "formula"⟩])
  else if (contentEnvironments.lookup name).isSome then
    let raw := joinNL (content.map (fun p => p.2))
    let display := cleanLatex raw
    if (trimL display.data).isEmpty then (idx, [])
    else (idx + 1, [⟨idx, takeStr 100 display, raw, s, e, "quote", "quote"⟩])
  else (idx, [])

/-- One environment-stack frame `(env_name, start_line, content_lines)`. -/
structure EnvFrame where
  name : String
  startLine : Nat
  content : List (Nat × String)
deriving DecidableEq

/-- The mutable state of `_analyze_structure`.  The head of `envStack` is the
top of the Python list (its last element). -/
structure AState where
  inDoc : Bool
  curLines : List String
  curStart : Nat
  paraIndex : Nat
  envStack : List EnvFrame
  skipDepth : Nat
  paras : List LatexPara
deriving DecidableEq

/-- Initial analyzer state. -/
def initState : AState := ⟨false, [], 0, 0, [], 0, []⟩

/-- Characters of `\begin{document}`. -/
def beginDocPat : List Char := "\\begin\x7bdocument\x7d".data

/-- Characters of `\end{document}`. -/
def endDocPat : List Char := "\\end\x7bdocument\x7d".data

/-- `stripped.startswith('%')`. -/
def isCommentLine (l : List Char) : Bool :=
  match l with
  | '%' :: _ => true
  | _ => false

/-- Append a line to the top stack frame, if any (`env_stack[-1][2].append`). -/
def pushTop (st : AState) (i : Nat) (line : String) : AState :=
  match st.envStack with
  | [] => st
  | top :: rest =>
    { st with envStack := { top with content := top.content ++ [(i, line)] } :: rest }

/-- Flush the accumulated paragraph lines as one (possibly elided) body block. -/
def flushCur (st : AState) (endLine : Nat) : AState :=
  let r := addParagraph st.paraIndex st.curLines st.curStart endLine
  { st with paraIndex := r.1, paras := st.paras ++ r.2, curLines := [] }

/-- The heading-detection loop: first command of `HEADING_COMMANDS` contained
in the stripped line (`cmd in stripped`). -/
def findHeadingCmd (stripped : List Char) : Option String :=
  (headingCommands.find? (fun p => containsL p.1.data stripped)).map (fun p => p.1)

/-- The environment-open branch of `_analyze_structure`. -/
def handleEnvBegin (st : AState) (i : Nat) (line : String) (name : String) : AState :=
  if skipEnvironments.contains name then { st with skipDepth := st.skipDepth + 1 }
  else if transparentEnvironments.contains name then pushTop st i line
  else
    let st1 := if !st.curLines.isEmpty && st.envStack.isEmpty then flushCur st (i - 1) else st
    { st1 with envStack := ⟨name, i, [(i, line)]⟩ :: st1.envStack }

/-- The environment-close branch of `_analyze_structure`.  `max(0, d - 1)` is
truncated natural subtraction. -/
def handleEnvEnd (st : AState) (i : Nat) (line : String) (name : String) : AState :=
  if skipEnvironments.contains name then { st with skipDepth := st.skipDepth - 1 }
  else if transparentEnvironments.contains name then pushTop st i line
  else
    match st.envStack with
    | [] => st
    | top :: rest =>
      if top.name = name then
        let r := processEnvironment st.paraIndex top.name top.startLine i
          (top.content ++ [(i, line)])
        { st with envStack := rest, paraIndex := r.1, paras := st.paras ++ r.2 }
      else st

/-- The non-environment-line tail of `_analyze_structure`ʼs loop body. -/
def handlePlain (st : AState) (i : Nat) (line : String) (stripped : List Char) : AState :=
  if st.skipDepth > 0 then st
  else if stripped.isEmpty then
    (if !st.curLines.isEmpty && st.envStack.isEmpty then flushCur st (i - 1) else st)
  else if isSkipCommand stripped then st
  else if !st.envStack.isEmpty then pushTop st i line
  else
    match findHeadingCmd stripped with
    | some cmd =>
      let st1 := if !st.curLines.isEmpty then flushCur st (i - 1) else st
      let r := addHeadingParagraph st1.paraIndex line i cmd
      { st1 with paraIndex := r.1, paras := st1.paras ++ r.2 }
    | none =>
      if hasTextContent stripped then
        (if st.curLines.isEmpty then { st with curLines := [line], curStart := i }
         else { st with curLines := st.curLines ++ [line] })
      else st

/-- One iteration of the `for i, line in enumerate(self.lines)` loop.  The
Bool is true exactly when the loop `break`s (an `\end{document}` line). -/
def stepLine (st : AState) (i : Nat) (line : String) : AState × Bool :=
  let stripped := trimL line.data
  if containsL beginDocPat stripped then ({ st with inDoc := true }, false)
  else if containsL endDocPat stripped then (st, true)
  else if !st.inDoc then (st, false)
  else if isCommentLine stripped then (st, false)
  else
    match parseEnvBegin stripped with
    | some name => (handleEnvBegin st i line name, false)
    | none =>
      match parseEnvEnd stripped with
      | some name => (handleEnvEnd st i line name, false)
      | none => (handlePlain st i line stripped, false)

/-- The whole enumerated-line loop, stopping at a `break`. -/
def analyzeLines : List (Nat × String) → AState → AState
  | [], st => st
  | (i, line) :: rest, st =>
    let r := stepLine st i line
    if r.2 then r.1 else analyzeLines rest r.1

/-- Embedding of `LatexAnalyzer._analyze_structure` applied to a source text:
run the loop, then flush a trailing paragraph accumulation. -/
def latexAnalyze (src : String) : List LatexPara :=
  let lines := splitNL src
  let st := analyzeLines lines.enum initState
  if st.curLines.isEmpty then st.paras else (flushCur st (lines.length - 1)).paras

/-- One render instruction chosen by `LatexToDocxConverter.convert` for one
block: the dispatch target plus the data it receives. -/
inductive RenderOp where
  | table (raw : String)
  | code (raw : String)
  | formula (raw : String)
  | styledPara (text : String) (elementType : String)
deriving DecidableEq

/-- The spec's `assignedKind`: the override-map entry when present, else the
block's original kind (`paragraph_mappings` lookup in `convert`). -/
def assignedKind (m : List (Nat × String)) (p : LatexPara) : String :=
  (m.lookup p.index).getD p.originalType

/-- The per-block dispatch of `LatexToDocxConverter.convert` (lines 38-60):
`element_type` is the override or the original type, but the branch taken is
chosen by `original_type`. -/
def convertOp (m : List (Nat × String)) (p : LatexPara) : RenderOp :=
  let elementType := (m.lookup p.index).getD p.originalType
  if p.originalType = "table" then RenderOp.table p.rawText
  else if p.originalType = "code" then RenderOp.code p.rawText
  else if p.originalType = "formula" then RenderOp.formula p.rawText
  else RenderOp.styledPara (cleanLatexForDocx p.rawText) elementType

/-- All render instructions of one conversion, in block order. -/
def convertDoc (m : List (Nat × String)) (paras : List LatexPara) : List RenderOp :=
  paras.map (fun p => convertOp m p)

/-- Name of the rendering path an instruction takes. -/
def pathName : RenderOp → String
  | RenderOp.table _ => "table"
  | RenderOp.code _ => "code"
  | RenderOp.formula _ => "formula"
  | RenderOp.styledPara _ _ => "paragraph"

/-- Chinese numerals table of `_to_chinese_number`. -/
def chineseNums : List String :=
  ["零", "一", "二", "三", "四", "五", "六", "七", "八", "九", "十",
   "十一", "十二", "十三", "十四", "十五", "十六", "十七", "十八", "十九", "二十"]

/-- Embedding of `_to_chinese_number`. -/
def toChineseNumber (n : Nat) : String :=
  if n ≤ 20 then chineseNums.getD n ""
  else if n < 100 then
    let tens := n / 10
    let ones := n % 10
    if ones = 0 then chineseNums.getD tens "" ++ "十"
    else chineseNums.getD tens "" ++ "十" ++ chineseNums.getD ones ""
  else toString n

/-- Circled digits table of `_to_circled_number`. -/
def circledNums : List String :=
  ["⓪", "①", "②", "③", "④", "⑤", "⑥", "⑦", "⑧", "⑨", "⑩",
   "⑪", "⑫", "⑬", "⑭", "⑮", "⑯", "⑰", "⑱", "⑲", "⑳"]

/-- Embedding of `_to_circled_number`. -/
def toCircledNumber (n : Nat) : String :=
  if n ≤ 20 then circledNums.getD n ""
  else "(" ++ toString n ++ ")"

/-- Increment counter `idx` and reset all deeper ones, as
`heading_counters[idx] += 1` followed by the reset loop. -/
def bumpCounters : List Nat → Nat → List Nat
  | [], _ => []
  | c :: rest, 0 => (c + 1) :: rest.map (fun _ => 0)
  | c :: rest, k + 1 => c :: bumpCounters rest k

/-- Embedding of `LatexToDocxConverter._get_heading_number`: updated counters
plus the produced numbering string. -/
def headingNext (cs : List Nat) (level : Nat) : List Nat × String :=
  if level < 1 || 5 < level then (cs, "")
  else
    let cs' := bumpCounters cs (level - 1)
    let str :=
      if level = 1 then toChineseNumber (cs'.getD 0 0) ++ "、"
      else if level = 2 then toString (cs'.getD 1 0) ++ ". "
      else if level = 3 then toString (cs'.getD 1 0) ++ "." ++ toString (cs'.getD 2 0) ++ " "
      else if level = 4 then
        toString (cs'.getD 1 0) ++ "." ++ toString (cs'.getD 2 0) ++ "." ++ toString (cs'.getD 3 0) ++ " "
      else toCircledNumber (cs'.getD 4 0)
    (cs', str)

/-- Run the numberer over a level sequence from the freshly initialised
`[0, 0, 0, 0, 0]` counters, collecting the produced prefixes. -/
def runNumbering (levels : List Nat) : List String :=
  (levels.foldl (fun (acc : List Nat × List String) lv =>
      let r := headingNext acc.1 lv
      (r.1, acc.2 ++ [r.2]))
    ([0, 0, 0, 0, 0], [])).2

/-- A dynamically typed style-dictionary value. -/
inductive SVal where
  | s (v : String)
  | n (v : ℚ)
  | b (v : Bool)
deriving DecidableEq

/-- One style dictionary (e.g. the `body` entry of the catalog). -/
abbrev StyleDict := List (String × SVal)

/-- `str.startswith` on strings. -/
def startsWithStr (p s : String) : Bool := isPrefixL p.data s.data

/-- Style dictionary chosen by `_add_paragraph_with_style` (lines 81-85):
`styles.get(element_type, styles.get('body', {}))` for headings, else
`styles.get('body', {})`. -/
def paragraphStyleDict (styles : List (String × StyleDict)) (etype : String) : StyleDict :=
  if startsWithStr "heading" etype then
    (styles.lookup etype).getD ((styles.lookup "body").getD [])
  else (styles.lookup "body").getD []

/-- Style dictionary used by `_add_caption` (line 211):
`styles.get('caption', {})`. -/
def addCaptionStyleDict (styles : List (String × StyleDict)) : StyleDict :=
  (styles.lookup "caption").getD []

/-- `FONT_SIZE_MAP` from `config.py` (pt values as exact rationals). -/
def fontSizeMap : List (String × ℚ) :=
  [("初号", 42), ("小初", 36), ("一号", 26), ("小一", 24), ("二号", 22), ("小二", 18),
   ("三号", 16), ("小三", 15), ("四号", 14), ("小四", 12), ("五号", 21/2), ("小五", 9),
   ("六号", 15/2), ("小六", 13/2), ("七号", 11/2), ("八号", 5)]

/-- `config.get_font_size_pt`. -/
def getFontSizePt (name : String) : ℚ := (fontSizeMap.lookup name).getD 12

/-- `_get_font_size_pt` of the LaTeX converter / the `isinstance(str)` branch
of the smart formatter: numbers pass through, names go through the map. -/
def getFontSizePtV : SVal → ℚ
  | SVal.n v => v
  | SVal.s name => getFontSizePt name
  | SVal.b _ => 12

/-- `style.get(key, default)` for a numeric value. -/
def styleGetQ (d : StyleDict) (k : String) (dflt : ℚ) : ℚ :=
  match d.lookup k with
  | some (SVal.n v) => v
  | _ => dflt

/-- First-line-indent decision of `_add_paragraph_with_style` (latex
formatter, lines 120-124): applied to every non-heading element type, as
`Cm(indent * 0.35)`; `if indent:` is the nonzero test.  The returned value is
in centimetres. -/
def latexFirstLineIndentCm (styles : List (String × StyleDict)) (etype : String) : Option ℚ :=
  if startsWithStr "heading" etype then none
  else
    let style := (styles.lookup "body").getD []
    let indent := styleGetQ style "first_line_indent" 2
    if indent = 0 then none else some (indent * (35 / 100))

/-- First-line-indent decision of `SmartFormatter._apply_style_to_paragraph`
(formatter.py, lines 218-224): only for `type_id == 'body'` with the key
present, as `Pt(font_size * indent_chars)`.  The returned value is in
points. -/
def smartFirstLineIndentPt (style : StyleDict) (typeId : String) : Option ℚ :=
  if typeId = "body" && (style.lookup "first_line_indent").isSome then
    let ic := styleGetQ style "first_line_indent" 0
    let fs := getFontSizePtV ((style.lookup "font_size").getD (SVal.n 12))
    some (fs * ic)
  else none

/-- Characters of `\begin{tabular}{`. -/
def tabularOpenTok : List Char := "\\begin\x7btabular\x7d\x7b".data

/-- Characters of `\end{tabular}`. -/
def tabularEndTok : List Char := "\\end\x7btabular\x7d".data

/-- Prefix of `l` before the first occurrence of `pat`, or `none`. -/
def findSubPat (pat : List Char) : List Char → Option (List Char)
  | [] => if pat.isEmpty then some [] else none
  | c :: rest =>
    if isPrefixL pat (c :: rest) then some []
    else
      match findSubPat pat rest with
      | some before => some (c :: before)
      | none => none

/-- `re.search(r'\\begin\{tabular\}\{[^}]*\}(.*?)\\end\{tabular\}', raw,
re.DOTALL)`, group 1: lazy capture up to the first `\end{tabular}`. -/
def searchTabular : List Char → Option (List Char)
  | [] => none
  | c :: rest =>
    if isPrefixL tabularOpenTok (c :: rest) then
      match splitAtChar '\x7d' ((c :: rest).drop tabularOpenTok.length) with
      | some (_, after) =>
        (match findSubPat tabularEndTok after with
         | some content => some content
         | none => searchTabular rest)
      | none => searchTabular rest
    else searchTabular rest

/-- Alternation helper for rule tokens (no word boundary in the source
pattern). -/
def tryRulePlain (names : List String) (rest : List Char) : Option (List Char) :=
  match names with
  | [] => none
  | n :: ns =>
    if isPrefixL n.data rest then some (rest.drop n.data.length) else tryRulePlain ns rest

/-- Matcher for `\\(?:toprule|midrule|bottomrule|hline|cline\{[^}]*\})\s*`,
removed. -/
def mRuleToken (l : List Char) : Option (List Char × List Char) :=
  match l with
  | '\\' :: rest =>
    match tryRulePlain ["toprule", "midrule", "bottomrule", "hline"] rest with
    | some rem => some ([], rem.dropWhile isWs)
    | none =>
      if isPrefixL "cline\x7b".data rest then
        match splitAtChar '\x7d' (rest.drop 6) with
        | some (_, rem) => some ([], rem.dropWhile isWs)
        | none => none
      else none
  | _ => none

/-- Helper for `re.split(r'\s*\\\\\s*', content)`: does a separator match
start here? -/
def rowSepHere (l : List Char) : Option (List Char) :=
  match l.dropWhile isWs with
  | '\\' :: '\\' :: rest => some (rest.dropWhile isWs)
  | _ => none

/-- Fueled scanner for the row split (each step consumes at least one
character, so fuel `length + 1` suffices). -/
def splitRowsAux : Nat → List Char → List Char → List (List Char)
  | 0, cur, l => [cur.reverse ++ l]
  | _ + 1, cur, [] => [cur.reverse]
  | fuel + 1, cur, c :: rest =>
    match rowSepHere (c :: rest) with
    | some rem => cur.reverse :: splitRowsAux fuel [] rem
    | none => splitRowsAux fuel (c :: cur) rest

/-- `re.split(r'\s*\\\\\s*', content)`. -/
def splitRowsSep (l : List Char) : List (List Char) := splitRowsAux (l.length + 1) [] l

/-- Python `row.split('&')`. -/
def splitOnChar (c : Char) : List Char → List (List Char)
  | [] => [[]]
  | x :: rest =>
    if x = c then [] :: splitOnChar c rest
    else
      match splitOnChar c rest with
      | [] => [[x]]
      | h :: t => (x :: h) :: t

/-- Matcher for `\\[a-zA-Z]+\{([^}]*)\}`, replaced by the group. -/
def mCmdAnyBraceKeep (l : List Char) : Option (List Char × List Char) :=
  match l with
  | '\\' :: rest =>
    let p := rest.span Char.isAlpha
    if p.1.isEmpty then none
    else
      match braceCapture p.2 with
      | some (content, rem) => some (content, rem)
      | none => none
  | _ => none

/-- Matcher for `\\[a-zA-Z]+(?![_])`, removed.  The greedy letter run
backtracks one letter when the lookahead sees an underscore, exactly as the
Python regex does. -/
def mCmdNoUnderscore (l : List Char) : Option (List Char × List Char) :=
  match l with
  | '\\' :: rest =>
    let p := rest.span Char.isAlpha
    if p.1.isEmpty then none
    else
      match p.2 with
      | '_' :: _ => if p.1.length ≤ 1 then none else some ([], rest.drop (p.1.length - 1))
      | _ => some ([], p.2)
  | _ => none

/-- Embedding of `LatexToDocxConverter._clean_cell`. -/
def cleanCellL (l : List Char) : List Char :=
  let t := runSub (mCmdArgNames ["textbf"] false id) l
  let t := runSub (mCmdArgNames ["textit"] false id) t
  let t := runSub (mCmdArgNames ["texttt"] false id) t
  let t := runSub (mCmdArgNames ["emph"] false id) t
  let t := runSub mCmdAnyBraceKeep t
  let t := runSub mCmdNoUnderscore t
  let t := stripBraces t
  let t := unescapeLatexL t
  trimL t

/-- String wrapper for `_clean_cell`. -/
def cleanCell (l : List Char) : String := String.mk (cleanCellL l)

/-- The grid extracted by `LatexToDocxConverter._add_table`: rule tokens
stripped, rows split at `\\`, cells split at `&` and cleaned; blank rows and
all-empty rows are dropped. -/
def extractTableRows (raw : String) : List (List String) :=
  match searchTabular raw.data with
  | none => []
  | some content =>
    let content := runSub mRuleToken content
    (splitRowsSep content).filterMap (fun rowRaw =>
      let row := trimL rowRaw
      if row.isEmpty then none
      else
        let cells := (splitOnChar '&' row).map (fun cpart => cleanCell (trimL cpart))
        if cells.any (fun cstr => cstr ≠ "") then some cells else none)

/-- The caption extracted by `_add_table` (cleaned like a cell). -/
def extractTableCaption (raw : String) : Option String :=
  (searchCaptionArg raw.data).map (fun cap => cleanCell cap)

/-- Python `str.replace(pat, repl)` (all occurrences, left to right). -/
def replaceAllL (pat repl : List Char) (l : List Char) : List Char :=
  runSub (mLit pat repl) l

/-- Digit-run parse used by `parseIntPy`. -/
def digitsToNat (ds : List Char) : Option Nat :=
  if ds.isEmpty then none
  else if ds.all (fun c => c.isDigit) then
    some (ds.foldl (fun a c => a * 10 + (c.toNat - 48)) 0)
  else none

/-- Python `int(s)` on a decimal string: optional surrounding whitespace,
optional sign, digits; `none` models the `ValueError` the source catches. -/
def parseIntPy (s : String) : Option Int :=
  match trimL s.data with
  | '-' :: ds => (digitsToNat ds).map (fun n => -(n : Int))
  | '+' :: ds => (digitsToNat ds).map (fun n => (n : Int))
  | ds => (digitsToNat ds).map (fun n => (n : Int))

/-- Fractional decimal digits of a rational in `[0, 1)`.  Bounded fuel: the
source formats binary floats, whose decimal expansions terminate; this is
exact for every terminating decimal that fits the fuel. -/
def fracDigitsQ : Nat → ℚ → List Char
  | 0, _ => []
  | fuel + 1, q =>
    if q = 0 then []
    else
      let q10 := q * 10
      let d := q10.floor.toNat
      Char.ofNat (48 + d) :: fracDigitsQ fuel (q10 - (q10.floor : ℚ))

/-- Python `repr`/f-string formatting of a float (`f"{pt}磅"`), modelled for
terminating decimals: integer part, a dot, and the fractional digits (at
least one, as `repr(12.0) = "12.0"`). -/
def qRepr (v : ℚ) : String :=
  let sgn : List Char := if v < 0 then ['-'] else []
  let a := |v|
  let ds := fracDigitsQ 17 (a - (a.floor : ℚ))
  String.mk (sgn ++ (toString a.floor.toNat).data ++ '.' :: (if ds.isEmpty then ['0'] else ds))

/-- Round `10 v` to an integer, ties to even — Python's `format(v, '.1f')`
rounding on exactly representable inputs. -/
def roundHalfEvenTenths (v : ℚ) : Int :=
  let x := v * 10
  let f := x.floor
  let r := x - (f : ℚ)
  if r < 1 / 2 then f
  else if 1 / 2 < r then f + 1
  else if f % 2 = 0 then f else f + 1

/-- Python `f"{v:.1f}"` for nonnegative sizes. -/
def fmt1 (v : ℚ) : String :=
  let n := roundHalfEvenTenths v
  String.mk ((toString (n / 10)).data ++ '.' :: (toString (n % 10).natAbs).data)

/-- Embedding of `DocxAnalyzer._pt_to_size_name`: nearest name in
`FONT_SIZE_MAP` (first wins ties, strict improvement required), within half a
point; otherwise the point value with a `磅` suffix. -/
def ptToSizeName (pt : Option ℚ) : Option String :=
  match pt with
  | none => none
  | some v =>
    let best := fontSizeMap.foldl
      (fun (acc : Option (String × ℚ)) entry =>
        match acc with
        | none => some (entry.1, |entry.2 - v|)
        | some (bn, bd) =>
          if |entry.2 - v| < bd then some (entry.1, |entry.2 - v|) else some (bn, bd))
      none
    match best with
    | some (bn, bd) => if bd ≤ 1 / 2 then some bn else some (qRepr v ++ "磅")
    | none => some (qRepr v ++ "磅")

/-- Python `"|".join(parts)`. -/
def joinBarList : List String → String
  | [] => ""
  | [s] => s
  | s :: rest => String.mk (s.data ++ '|' :: (joinBarList rest).data)

/-- Embedding of `DocxAnalyzer._generate_signature`; the `or "default"` and
`if font_size` tests are Python truthiness (empty string and zero are
falsy). -/
def genSignature (fontName : Option String) (fontSize : Option ℚ)
    (bold italic : Bool) (alignment : String) : String :=
  let p1 := match fontName with
    | some v => if v = "" then "default" else v
    | none => "default"
  let p2 := match fontSize with
    | some v => if v = 0 then "default" else fmt1 v
    | none => "default"
  joinBarList [p1, p2, if bold then "B" else "", if italic then "I" else "", alignment]

/-- Paragraph alignment as exposed by the external document reader. -/
inductive DocxAlign where
  | left
  | center
  | right
  | justify
  | other
deriving DecidableEq

/-- First-run font attributes as read by `_analyze_paragraphs`; `none` is
Python `None` on the corresponding `font` property. -/
structure DocxRunInfo where
  fontName : Option String
  fontSizePt : Option ℚ
  bold : Option Bool
  italic : Option Bool
deriving DecidableEq

/-- `para.style.font` attributes. -/
structure DocxStyleFont where
  name : Option String
  sizePt : Option ℚ
  bold : Option Bool
deriving DecidableEq

/-- `para.style` attributes. -/
structure DocxStyleInfo where
  name : String
  font : Option DocxStyleFont
deriving DecidableEq

/-- One paragraph of the input stream, carrying the attributes the external
document reader exposes and `_analyze_paragraphs` reads. -/
structure DocxInPara where
  text : String
  style : Option DocxStyleInfo
  runs : List DocxRunInfo
  alignment : Option DocxAlign
  firstLineIndentPt : Option ℚ
  lineSpacing : Option ℚ
deriving DecidableEq

/-- Embedding of `ParagraphInfo` from `docx_analyzer.py`. -/
structure ParagraphInfo where
  index : Nat
  text : String
  styleName : String
  fontName : Option String
  fontSize : Option ℚ
  fontSizeName : Option String
  bold : Bool
  italic : Bool
  alignment : String
  firstLineIndent : Option ℚ
  lineSpacing : Option ℚ
  isHeading : Bool
  headingLevel : Int
  formatSignature : String
deriving DecidableEq

/-- Python truthiness filter for an optional string (empty is falsy). -/
def optTruthyS (o : Option String) : Option String :=
  match o with
  | some v => if v = "" then none else some v
  | none => none

/-- Python truthiness filter for an optional number (zero is falsy). -/
def optTruthyQ (o : Option ℚ) : Option ℚ :=
  match o with
  | some v => if v = 0 then none else some v
  | none => none

/-- The `align_map.get(...)` lookup; `WD_ALIGN_PARAGRAPH.LEFT` is the falsy
enum value 0, which like `None` leaves the default `"left"`. -/
def alignmentName (a : Option DocxAlign) : String :=
  match a with
  | some DocxAlign.center => "center"
  | some DocxAlign.right => "right"
  | some DocxAlign.justify => "justify"
  | _ => "left"

/-- The record built by one non-skipped iteration of
`DocxAnalyzer._analyze_paragraphs` for the paragraph at position `i`. -/
def analyzeOne (i : Nat) (p : DocxInPara) : ParagraphInfo :=
  let text0 := trimL p.text.data
  let styleName := match p.style with
    | some s => s.name
    | none => "Normal"
  let rFontName := match p.runs with
    | [] => none
    | r :: _ => optTruthyS r.fontName
  let rFontSize := match p.runs with
    | [] => none
    | r :: _ => optTruthyQ r.fontSizePt
  let rBold := match p.runs with
    | [] => false
    | r :: _ => r.bold.getD false
  let rItalic := match p.runs with
    | [] => false
    | r :: _ => r.italic.getD false
  let sFont := match p.style with
    | some s => s.font
    | none => none
  let fontName := match rFontName, sFont with
    | none, some f => optTruthyS f.name
    | v, _ => v
  let fontSize := match rFontSize, sFont with
    | none, some f => optTruthyQ f.sizePt
    | v, _ => v
  let bold := match sFont with
    | some f => if !rBold && f.bold.getD false then true else rBold
    | none => rBold
  let alignStr := alignmentName p.alignment
  let fli := optTruthyQ p.firstLineIndentPt
  let ls := optTruthyQ p.lineSpacing
  let isHeading := isPrefixL "Heading".data styleName.data || containsL "标题".data styleName.data
  let headingLevel : Int :=
    if isHeading then
      match parseIntPy (String.mk
          (replaceAllL "标题 ".data [] (replaceAllL "Heading ".data [] styleName.data))) with
      | some n => n
      | none => 1
    else 0
  let textTrunc := if 100 < text0.length then String.mk (text0.take 100 ++ "...".data)
    else String.mk text0
  ⟨i, textTrunc, styleName, fontName, fontSize, ptToSizeName fontSize, bold, rItalic,
   alignStr, fli, ls, isHeading, headingLevel,
   genSignature fontName fontSize bold rItalic alignStr⟩

/-- The `for i, para in enumerate(...)` loop of `_analyze_paragraphs`:
paragraphs whose stripped text is empty are skipped (`continue`), everything
else produces a record carrying the enumeration position as its index. -/
def analyzeParagraphsFrom (i : Nat) : List DocxInPara → List ParagraphInfo
  | [] => []
  | p :: rest =>
    if (trimL p.text.data).isEmpty then analyzeParagraphsFrom (i + 1) rest
    else analyzeOne i p :: analyzeParagraphsFrom (i + 1) rest

/-- Embedding of `DocxAnalyzer._analyze_paragraphs`. -/
def analyzeParagraphs (ps : List DocxInPara) : List ParagraphInfo :=
  analyzeParagraphsFrom 0 ps

/-- Does the name of the top stack frame equal `name`
(`env_stack and env_stack[-1][0] == env_name`)? -/
def topNameMatches (st : AState) (name : String) : Bool :=
  match st.envStack with
  | [] => false
  | top :: _ => top.name == name

/-- The round-trip scenario input with the `tabular` environment and the
caption wrapped in a `table` environment. -/
def lit3 : String :=
  "\\begin\x7bdocument\x7d\n\\section\x7bIntro\x7d\n\nOne line of text.\n\\begin\x7btable\x7d\n\\begin\x7btabular\x7d\x7bcc\x7d\nA & B \\\\\nC & D \\\\\n\\end\x7btabular\x7d\n\\caption\x7bT1\x7d\n\\end\x7btable\x7d\n\\end\x7bdocument\x7d"

/-- The round-trip scenario input exactly as the claim lists it: section,
blank line, text line, bare `tabular` environment with two rows, caption. -/
def lit3plain : String :=
  "\\begin\x7bdocument\x7d\n\\section\x7bIntro\x7d\n\nOne line of text.\n\\begin\x7btabular\x7d\x7bcc\x7d\nA & B \\\\\nC & D \\\\\n\\end\x7btabular\x7d\n\\caption\x7bT1\x7d\n\\end\x7bdocument\x7d"

/-- An input ending with an unterminated `quote` environment holding one
content line. -/
def lit4 : String := "\\begin\x7bdocument\x7d\n\\begin\x7bquote\x7d\nSome text here"

/-- An input ending while a plain paragraph is accumulating. -/
def lit4b : String := "\\begin\x7bdocument\x7d\nHello world"

/-- A doubly nested same-name skip region (lines 1-8) containing an empty
`table` environment at lines 3-4 and a content line after the region. -/
def lit5 : String :=
  "\\begin\x7bdocument\x7d\n\\begin\x7btikzpicture\x7d\n\\begin\x7btikzpicture\x7d\n\\begin\x7btable\x7d\n\\end\x7btable\x7d\nhidden\n\\end\x7btikzpicture\x7d\nstill hidden\n\\end\x7btikzpicture\x7d\nAfter"

/-- A doubly nested same-name skip region containing only plain content
lines, with content between the two closes and after the region. -/
def lit5b : String :=
  "\\begin\x7bdocument\x7d\n\\begin\x7btikzpicture\x7d\n\\begin\x7btikzpicture\x7d\nHidden one\n\\end\x7btikzpicture\x7d\nHidden two\n\\end\x7btikzpicture\x7d\nAfter"

/-- A line that contains a heading command without beginning with one. -/
def lit6line : String := "Therefore \\section\x7bA\x7d holds."

/-- `lit6line` inside a document wrapper. -/
def lit6 : String := "\\begin\x7bdocument\x7d\nTherefore \\section\x7bA\x7d holds."

/-- A block whose original kind is `body`. -/
def demoBodyPara : LatexPara := ⟨0, "Hello", "Hello", 0, 0, "body", "body"⟩

/-- A block whose original kind is `table`. -/
def demoTablePara : LatexPara :=
  ⟨0, "[表格]", "\\begin\x7btable\x7d\n\\end\x7btable\x7d", 0, 1, "table", "table"⟩

/-- A style catalog holding distinct `body`, `caption` and `quote` entries. -/
def demoCatalog : List (String × StyleDict) :=
  [("body", [("font_size", SVal.s "小四"), ("first_line_indent", SVal.n 2)]),
   ("caption", [("font_size", SVal.s "小五"), ("alignment", SVal.s "center")]),
   ("quote", [("font_size", SVal.s "五号"), ("left_indent", SVal.n 1)])]

/-- A paragraph-stream entry with only text set. -/
def mkDocxPara (t : String) : DocxInPara := ⟨t, none, [], none, none, none⟩

/-- A three-paragraph stream whose middle paragraph has empty text. -/
def demoDocxStream : List DocxInPara := [mkDocxPara "a", mkDocxPara "", mkDocxPara "b"]

/-- An analyzer state with one open `quote` frame on the stack. -/
def demoC9State : AState :=
  ⟨true, [], 0, 0, [⟨"quote", 1, [(1, "\\begin\x7bquote\x7d")]⟩], 0, []⟩

/-- An analyzer state inside a depth-two skip region. -/
def demoSkipState : AState := ⟨true, [], 0, 0, [], 2, []⟩

/-- An analyzer state in plain top-level context (in the document, no open
frame, no skip, no accumulation). -/
def demoPlainState : AState := ⟨true, [], 0, 0, [], 0, []⟩

/-- An emitter result is good for start index `idx` when the emitted blocks
carry the consecutive indices `idx, idx+1, ...` and the returned next index
sits right after them. -/
def GoodEmit (idx : Nat) (r : Nat × List LatexPara) : Prop :=
  r.1 = idx + r.2.length ∧ r.2.map (fun p => p.index) = List.range' idx r.2.length

/-- The analyzer's running invariant: the emitted blocks carry the dense
indices `0, 1, ...` and `paraIndex` is the next free index. -/
def IndexInv (paras : List LatexPara) (idx : Nat) : Prop :=
  paras.map (fun p => p.index) = List.range' 0 paras.length ∧ idx = paras.length

theorem range1_append (s m n : Nat) :
    List.range' s m ++ List.range' (s + m) n = List.range' s (m + n) := by
  have h := List.range'_append s m n 1
  simp only [Nat.one_mul, Nat.mul_one] at h
  rw [Nat.add_comm n m] at h
  exact h

theorem goodEmit_nil (idx : Nat) : GoodEmit idx (idx, []) := by
  constructor <;> simp [List.range']

theorem goodEmit_single (idx : Nat) (p : LatexPara) (h : p.index = idx) :
    GoodEmit idx (idx + 1, [p]) := by
  constructor
  · simp
  · simp [h, List.range']

theorem addParagraph_good (idx : Nat) (lines : List String) (s e : Nat) :
    GoodEmit idx (addParagraph idx lines s e) := by
  simp only [addParagraph]
  split
  · exact goodEmit_nil idx
  · exact goodEmit_single idx _ rfl

theorem addHeadingParagraph_good (idx : Nat) (line : String) (i : Nat) (cmd : String) :
    GoodEmit idx (addHeadingParagraph idx line i cmd) :=
  goodEmit_single idx _ rfl

theorem addListItem_good (idx : Nat) (lines : List String) (s : Nat) :
    GoodEmit idx (addListItem idx lines s) := by
  simp only [addListItem]
  split
  · exact goodEmit_nil idx
  · exact goodEmit_single idx _ rfl

theorem goodEmit_seq {idx : Nat} {a b : Nat × List LatexPara}
    (ha : GoodEmit idx a) (hb : GoodEmit a.1 b) :
    GoodEmit idx (b.1, a.2 ++ b.2) := by
  obtain ⟨ha1, ha2⟩ := ha
  obtain ⟨hb1, hb2⟩ := hb
  refine ⟨by simp [hb1, ha1, Nat.add_assoc], ?_⟩
  have hmap : (a.2 ++ b.2).map (fun p => p.index)
      = List.range' idx a.2.length ++ List.range' (idx + a.2.length) b.2.length := by
    rw [List.map_append, ha2, ← ha1, hb2]
  rw [hmap, range1_append]
  simp

theorem processList_good (content : List (Nat × String)) :
    ∀ (idx : Nat) (cur : List String) (istart : Nat),
      GoodEmit idx (processList idx content cur istart) := by
  induction content with
  | nil =>
    intro idx cur istart
    unfold processList
    split
    · exact goodEmit_nil idx
    · exact addListItem_good ..
  | cons hd rest ih =>
    obtain ⟨ln, line⟩ := hd
    intro idx cur istart
    unfold processList
    split
    · have ha : GoodEmit idx (if cur.isEmpty then (idx, ([] : List LatexPara))
          else addListItem idx cur istart) := by
        split
        · exact goodEmit_nil idx
        · exact addListItem_good ..
      exact goodEmit_seq ha (ih _ _ _)
    · split
      · exact ih ..
      · exact ih ..

theorem processEnvironment_good (idx : Nat) (name : String) (s e : Nat)
    (content : List (Nat × String)) :
    GoodEmit idx (processEnvironment idx name s e content) := by
  simp only [processEnvironment]
  split
  · exact processList_good ..
  split
  · exact goodEmit_single idx _ rfl
  split
  · split
    · exact goodEmit_single idx _ rfl
    · exact goodEmit_nil idx
  split
  · exact goodEmit_single idx _ rfl
  split
  · exact goodEmit_single idx _ rfl
  split
  · split
    · exact goodEmit_nil idx
    · exact goodEmit_single idx _ rfl
  · exact goodEmit_nil idx

theorem indexInv_emit {paras : List LatexPara} {idx : Nat} (h : IndexInv paras idx)
    {r : Nat × List LatexPara} (hr : GoodEmit idx r) : IndexInv (paras ++ r.2) r.1 := by
  obtain ⟨h1, h2⟩ := h
  obtain ⟨hr1, hr2⟩ := hr
  subst h2
  constructor
  · rw [List.map_append, h1, hr2, List.length_append]
    have := range1_append 0 paras.length r.2.length
    simpa using this
  · simpa using hr1

theorem flushCur_inv {st : AState} (h : IndexInv st.paras st.paraIndex) (e : Nat) :
    IndexInv (flushCur st e).paras (flushCur st e).paraIndex := by
  have := indexInv_emit h (addParagraph_good st.paraIndex st.curLines st.curStart e)
  simpa [flushCur] using this

theorem pushTop_fields (st : AState) (i : Nat) (line : String) :
    (pushTop st i line).paras = st.paras ∧ (pushTop st i line).paraIndex = st.paraIndex := by
  unfold pushTop
  split <;> simp

theorem handleEnvBegin_inv {st : AState} (h : IndexInv st.paras st.paraIndex)
    (i : Nat) (line name : String) :
    IndexInv (handleEnvBegin st i line name).paras (handleEnvBegin st i line name).paraIndex := by
  unfold handleEnvBegin
  split
  · exact h
  split
  · obtain ⟨hp, hq⟩ := pushTop_fields st i line
    rw [hp, hq]
    exact h
  · dsimp only
    split
    · simpa using flushCur_inv h (i - 1)
    · simpa using h

theorem handleEnvEnd_inv {st : AState} (h : IndexInv st.paras st.paraIndex)
    (i : Nat) (line name : String) :
    IndexInv (handleEnvEnd st i line name).paras (handleEnvEnd st i line name).paraIndex := by
  unfold handleEnvEnd
  split
  · exact h
  split
  · obtain ⟨hp, hq⟩ := pushTop_fields st i line
    rw [hp, hq]
    exact h
  · split
    · exact h
    · split
      · simpa using indexInv_emit h (processEnvironment_good ..)
      · exact h

theorem handlePlain_inv {st : AState} (h : IndexInv st.paras st.paraIndex)
    (i : Nat) (line : String) (stripped : List Char) :
    IndexInv (handlePlain st i line stripped).paras (handlePlain st i line stripped).paraIndex := by
  unfold handlePlain
  split
  · exact h
  split
  · split
    · exact flushCur_inv h (i - 1)
    · exact h
  split
  · exact h
  split
  · obtain ⟨hp, hq⟩ := pushTop_fields st i line
    rw [hp, hq]
    exact h
  · split
    · dsimp only
      split
      · simpa using indexInv_emit (flushCur_inv h (i - 1)) (addHeadingParagraph_good ..)
      · simpa using indexInv_emit h (addHeadingParagraph_good ..)
    · split
      · split
        · simpa using h
        · simpa using h
      · exact h

theorem stepLine_inv {st : AState} (h : IndexInv st.paras st.paraIndex)
    (i : Nat) (line : String) :
    IndexInv (stepLine st i line).1.paras (stepLine st i line).1.paraIndex := by
  unfold stepLine
  dsimp only
  split
  · simpa using h
  split
  · exact h
  split
  · exact h
  split
  · exact h
  split
  · exact handleEnvBegin_inv h ..
  split
  · exact handleEnvEnd_inv h ..
  · exact handlePlain_inv h ..

theorem analyzeLines_inv : ∀ (ls : List (Nat × String)) (st : AState),
    IndexInv st.paras st.paraIndex →
    IndexInv (analyzeLines ls st).paras (analyzeLines ls st).paraIndex := by
  intro ls
  induction ls with
  | nil => intro st h; exact h
  | cons hd rest ih =>
    obtain ⟨i, line⟩ := hd
    intro st h
    simp only [analyzeLines]
    split
    · exact stepLine_inv h i line
    · exact ih _ (stepLine_inv h i line)

theorem latexAnalyze_map_index (src : String) :
    (latexAnalyze src).map (fun p => p.index) = List.range (latexAnalyze src).length := by
  have hinit : IndexInv initState.paras initState.paraIndex := by
    constructor <;> simp [initState, List.range']
  have hloop := analyzeLines_inv (splitNL src).enum initState hinit
  rw [List.range_eq_range']
  simp only [latexAnalyze]
  split
  · exact hloop.1
  · exact (flushCur_inv hloop ((splitNL src).length - 1)).1

theorem analyzeParagraphsFrom_index_ge (ps : List DocxInPara) :
    ∀ (i : Nat) (q : ParagraphInfo), q ∈ analyzeParagraphsFrom i ps → i ≤ q.index := by
  induction ps with
  | nil => intro i q h; simp [analyzeParagraphsFrom] at h
  | cons p rest ih =>
    intro i q h
    unfold analyzeParagraphsFrom at h
    split at h
    · exact Nat.le_of_succ_le (ih (i + 1) q h)
    · rcases List.mem_cons.mp h with h1 | h1
      · subst h1
        show i ≤ i
        exact Nat.le_refl i
      · exact Nat.le_of_succ_le (ih (i + 1) q h1)

theorem analyzeParagraphsFrom_pairwise (ps : List DocxInPara) :
    ∀ i : Nat,
      List.Pairwise (fun a b => a.index < b.index) (analyzeParagraphsFrom i ps) := by
  induction ps with
  | nil => intro i; simp [analyzeParagraphsFrom]
  | cons p rest ih =>
    intro i
    unfold analyzeParagraphsFrom
    split
    · exact ih (i + 1)
    · refine List.Pairwise.cons ?_ (ih (i + 1))
      intro q hq
      have h1 := analyzeParagraphsFrom_index_ge rest (i + 1) q hq
      have h2 : (analyzeOne i p).index = i := rfl
      omega

theorem string_mk_ne_empty {l : List Char} (h : l ≠ []) : String.mk l ≠ "" := by
  intro hc
  have := congrArg String.data hc
  exact h this

theorem analyzeOne_text_ne (i : Nat) (p : DocxInPara)
    (h : (trimL p.text.data).isEmpty = false) : (analyzeOne i p).text ≠ "" := by
  show (if 100 < (trimL p.text.data).length
      then String.mk ((trimL p.text.data).take 100 ++ "...".data)
      else String.mk (trimL p.text.data)) ≠ ""
  split
  · apply string_mk_ne_empty
    simp
  · apply string_mk_ne_empty
    simpa using h

theorem analyzeParagraphsFrom_text_ne (ps : List DocxInPara) :
    ∀ (i : Nat) (q : ParagraphInfo), q ∈ analyzeParagraphsFrom i ps → q.text ≠ "" := by
  induction ps with
  | nil => intro i q h; simp [analyzeParagraphsFrom] at h
  | cons p rest ih =>
    intro i q h
    unfold analyzeParagraphsFrom at h
    split at h
    · exact ih (i + 1) q h
    · rcases List.mem_cons.mp h with h1 | h1
      · subst h1
        rename_i hcond
        apply analyzeOne_text_ne
        simpa using hcond
      · exact ih (i + 1) q h1

/-- Claim C1 (counterexample): overriding a `body` block to `table` does not
change the rendering path — the converter still takes the styled-paragraph
path (merely passing `table` as the style key), and overriding a `table`
block to `body` still takes the table path.  So an OverrideMap entry mapping
a block to a different kind does not change which rendering path is taken,
contrary to the claim. -/
theorem c1_counterexample :
    convertOp [(0, "table")] demoBodyPara = RenderOp.styledPara "Hello" "table"
    ∧ assignedKind [(0, "table")] demoBodyPara = "table"
    ∧ pathName (convertOp [(0, "table")] demoBodyPara) = "paragraph"
    ∧ convertOp [(0, "body")] demoTablePara = RenderOp.table demoTablePara.rawText
    ∧ assignedKind [(0, "body")] demoTablePara = "body" := by
  exact ⟨by decide, by decide, by decide, by decide, by decide⟩

/-- Claim C1 (amended): the renderer dispatches on `originalKind` to choose
the rendering path — the path is invariant under every override map and is a
function of `originalKind` alone — while `assignedKind` (the override when
present, else the original kind) is used only inside the styled-paragraph
path, where it is the element type handed to the style and numbering
logic. -/
theorem c1_amended (m : List (Nat × String)) (p : LatexPara) :
    pathName (convertOp m p) = pathName (convertOp [] p)
    ∧ pathName (convertOp m p)
        = (if p.originalType = "table" then "table"
           else if p.originalType = "code" then "code"
           else if p.originalType = "formula" then "formula"
           else "paragraph")
    ∧ (∀ t e, convertOp m p = RenderOp.styledPara t e → e = assignedKind m p) := by
  by_cases h1 : p.originalType = "table"
  · refine ⟨?_, ?_, ?_⟩ <;> simp [convertOp, pathName, h1]
  by_cases h2 : p.originalType = "code"
  · refine ⟨?_, ?_, ?_⟩ <;> simp [convertOp, pathName, h1, h2]
  by_cases h3 : p.originalType = "formula"
  · refine ⟨?_, ?_, ?_⟩ <;> simp [convertOp, pathName, h1, h2, h3]
  · refine ⟨?_, ?_, ?_⟩
    · simp [convertOp, pathName, h1, h2, h3]
    · simp [convertOp, pathName, h1, h2, h3]
    · intro t e h
      simp only [convertOp, if_neg h1, if_neg h2, if_neg h3] at h
      rw [RenderOp.styledPara.injEq] at h
      rw [assignedKind]
      exact h.2.symm

/-- Claim C1 (amended, witness): at the concrete overridden body block the
styled-paragraph instruction carries the assigned kind `table`. -/
theorem c1_amended_witness : "table" = assignedKind [(0, "table")] demoBodyPara :=
  (c1_amended [(0, "table")] demoBodyPara).2.2 (cleanLatexForDocx demoBodyPara.rawText) "table"
    (by decide)

/-- Claim C2: the heading numberer keeps five counters starting at zero;
`next(level)` increments counter `level`, resets every deeper counter and
keeps the shallower ones, and formats level 1 as a Chinese ordinal with `、`,
level 2 as `c2. `, level 3 as `c2.c3 `, level 4 as `c2.c3.c4 ` and level 5 as
a circled digit; on the level sequence `[1, 2, 3, 2]` it produces exactly
`["一、", "1. ", "1.1 ", "2. "]`. -/
theorem c2_heading_numbering :
    (∀ a b c d e : Nat,
        headingNext [a, b, c, d, e] 1 = ([a + 1, 0, 0, 0, 0], toChineseNumber (a + 1) ++ "、"))
    ∧ (∀ a b c d e : Nat,
        headingNext [a, b, c, d, e] 2 = ([a, b + 1, 0, 0, 0], toString (b + 1) ++ ". "))
    ∧ (∀ a b c d e : Nat,
        headingNext [a, b, c, d, e] 3
          = ([a, b, c + 1, 0, 0], toString b ++ "." ++ toString (c + 1) ++ " "))
    ∧ (∀ a b c d e : Nat,
        headingNext [a, b, c, d, e] 4
          = ([a, b, c, d + 1, 0],
             toString b ++ "." ++ toString c ++ "." ++ toString (d + 1) ++ " "))
    ∧ (∀ a b c d e : Nat,
        headingNext [a, b, c, d, e] 5 = ([a, b, c, d, e + 1], toCircledNumber (e + 1)))
    ∧ runNumbering [1, 2, 3, 2] = ["一、", "1. ", "1.1 ", "2. "] := by
  refine ⟨fun a b c d e => rfl, fun a b c d e => rfl, fun a b c d e => rfl,
    fun a b c d e => rfl, fun a b c d e => rfl, by decide⟩

/-- Claim C3 (counterexample): on the input exactly as the claim lists it —
`\section{Intro}`, a blank line, `One line of text.`, a bare `tabular`
environment with rows `A & B \\` and `C & D \\`, then `\caption{T1}` (inside
the document wrapper) — the parser produces only a heading and one body
block: the `tabular` environment is transparent, its rows fold into the body
paragraph, and no table block is produced. -/
theorem c3_counterexample :
    (latexAnalyze lit3plain).map (fun p => p.elementType) = ["heading1", "body"] := by decide

/-- Claim C3 (amended): with the `tabular` environment and the caption
wrapped in a `table` environment, the parse produces exactly
`[heading1("Intro"), body("One line of text."), table]`, and the renderer
extracts rows `[["A","B"],["C","D"]]` and caption `T1` from the table
block. -/
theorem c3_amended_thm :
    ((latexAnalyze lit3).map (fun p => (p.index, p.elementType, p.text))
      = [(0, "heading1", "Intro"), (1, "body", "One line of text."), (2, "table", "[表格] T1")])
    ∧ extractTableRows ((latexAnalyze lit3).getD 2 default).rawText = [["A", "B"], ["C", "D"]]
    ∧ extractTableCaption ((latexAnalyze lit3).getD 2 default).rawText = some "T1" := by
  exact ⟨by decide, by decide, by decide⟩

/-- Claim C4 (counterexample): an input ending with an unterminated `quote`
environment holding the content line `Some text here` produces no block at
all — the accumulated frame content is silently discarded rather than
flushed as a `body` block, and no diagnostic is emitted anywhere. -/
theorem c4_counterexample : latexAnalyze lit4 = [] := by decide

/-- Claim C4 (amended): at end of input the content of still-open environment
frames is silently discarded (no block, no diagnostic), while an active
top-level paragraph accumulation is flushed as a final body block. -/
theorem c4_amended_thm :
    latexAnalyze lit4 = []
    ∧ (latexAnalyze lit4b).map (fun p => (p.elementType, p.text)) = [("body", "Hello world")] := by
  exact ⟨by decide, by decide⟩

/-- Claim C5 (counterexample): inside a doubly nested same-name skip region
(`tikzpicture` opened at lines 1 and 2, closed at lines 6 and 8), an empty
`table` environment at lines 3-4 — strictly between the outer open and the
final matching close — still emits a table block, because environment
open/close lines are processed before the skip-depth test.  So a line
between the outer open and the final matching close can produce a block. -/
theorem c5_counterexample :
    (latexAnalyze lit5).map (fun p => (p.elementType, p.lineStart, p.lineEnd))
      = [("table", 3, 4), ("body", 9, 9)] := by decide

/-- Claim C5 (amended): a same-name skip region nested two deep closes only
after two matching closes, and every line inside it that is not an
environment open/close token is discarded and produces no block (the general
conjunct: any non-environment line processed at positive skip depth leaves
the analyzer state completely unchanged); environment open/close tokens,
however, are still processed inside the region and can emit blocks. -/
theorem c5_amended_thm :
    ((latexAnalyze lit5b).map (fun p => (p.elementType, p.text)) = [("body", "After")])
    ∧ (∀ (st : AState) (i : Nat) (line : String),
        st.inDoc = true → 0 < st.skipDepth →
        containsL beginDocPat (trimL line.data) = false →
        containsL endDocPat (trimL line.data) = false →
        parseEnvBegin (trimL line.data) = none →
        parseEnvEnd (trimL line.data) = none →
        stepLine st i line = (st, false)) := by
  refine ⟨by decide, ?_⟩
  intro st i line hin hsd hb he heb hee
  by_cases hc : isCommentLine (trimL line.data)
  · simp [stepLine, hb, he, hin, hc]
  · simp [stepLine, hb, he, hin, hc, heb, hee, handlePlain, hsd]

/-- Claim C5 (amended, witness): a plain content line at skip depth two is
discarded with the state unchanged. -/
theorem c5_witness : stepLine demoSkipState 3 "Hidden one" = (demoSkipState, false) :=
  c5_amended_thm.2 demoSkipState 3 "Hidden one" rfl (by decide) (by decide) (by decide)
    (by decide) (by decide)

/-- Claim C6 (counterexample): the line `Therefore \section{A} holds.` does
not begin with any heading command, yet the parser classifies it as a
`heading1` block (with text `A`), because the classifier tests substring
containment, not a prefix. -/
theorem c6_counterexample :
    ((latexAnalyze lit6).map (fun p => (p.elementType, p.text)) = [("heading1", "A")])
    ∧ headingCommands.all (fun pr => !isPrefixL pr.1.data (trimL lit6line.data)) = true := by
  exact ⟨by decide, by decide⟩

/-- Claim C6 (amended): outside any frame (no open environment, no skip
region, no pending accumulation), a non-blank, non-comment,
non-skip-command, non-environment line is classified as a heading if and
only if it contains one of the fixed heading-command names as a substring
(the first containment in the fixed order winning); the emitted block is the
one `_add_heading_paragraph` builds, whose text is the first `{...}` group of
the heading pattern read up to the first closing brace (not balanced), and
when no command is contained the line emits no block. -/
theorem c6_amended_thm (st : AState) (i : Nat) (line : String)
    (hin : st.inDoc = true) (hsd : st.skipDepth = 0) (hstk : st.envStack = [])
    (hcur : st.curLines = [])
    (hb : containsL beginDocPat (trimL line.data) = false)
    (he : containsL endDocPat (trimL line.data) = false)
    (hc : isCommentLine (trimL line.data) = false)
    (heb : parseEnvBegin (trimL line.data) = none)
    (hee : parseEnvEnd (trimL line.data) = none)
    (hne : (trimL line.data).isEmpty = false)
    (hsc : isSkipCommand (trimL line.data) = false) :
    ((findHeadingCmd (trimL line.data)).isSome
      ↔ ∃ pr ∈ headingCommands, containsL pr.1.data (trimL line.data))
    ∧ (∀ cmd, findHeadingCmd (trimL line.data) = some cmd →
        (stepLine st i line).1.paras
          = st.paras ++ (addHeadingParagraph st.paraIndex line i cmd).2)
    ∧ (findHeadingCmd (trimL line.data) = none →
        (stepLine st i line).1.paras = st.paras) := by
  refine ⟨?_, ?_, ?_⟩
  · simp [findHeadingCmd, List.find?_isSome]
  · intro cmd hm
    simp [stepLine, hb, he, hin, hc, heb, hee, handlePlain, hsd, hne, hsc, hstk, hcur, hm]
  · intro hm
    simp [stepLine, hb, he, hin, hc, heb, hee, handlePlain, hsd, hne, hsc, hstk, hcur, hm]
    split <;> simp [hcur]

/-- Claim C6 (amended, witness): in the plain top-level state, the concrete
line containing (but not beginning with) `\section` emits exactly the
heading block built by `_add_heading_paragraph`. -/
theorem c6_witness :
    (stepLine demoPlainState 1 lit6line).1.paras
      = demoPlainState.paras
        ++ (addHeadingParagraph demoPlainState.paraIndex lit6line 1 "\\section").2 :=
  (c6_amended_thm demoPlainState 1 lit6line rfl rfl rfl rfl (by decide) (by decide)
    (by decide) (by decide) (by decide) (by decide) (by decide)).2.1 "\\section" (by decide)

/-- Claim C7 (counterexample): in the paragraph-stream analysis, a stream
whose middle paragraph has empty text produces records with indices
`[0, 2]` — the empty paragraph is excluded but its position is skipped, so
the index values are not dense. -/
theorem c7_counterexample :
    (analyzeParagraphs demoDocxStream).map (fun q => q.index) = [0, 2] := by decide

/-- Claim C7 (amended): in one LaTeX parse the block indices are exactly
`0, 1, 2, ...` (dense and unique); in one paragraph-stream analysis the
record indices are strictly increasing (hence unique) positions of the
source paragraphs, so excluded empty paragraphs leave gaps, and records are
produced only for paragraphs with nonempty stripped text. -/
theorem c7_amended_thm :
    (∀ src : String,
        (latexAnalyze src).map (fun p => p.index) = List.range (latexAnalyze src).length)
    ∧ (∀ ps : List DocxInPara,
        List.Pairwise (fun a b => a.index < b.index) (analyzeParagraphs ps))
    ∧ (∀ (ps : List DocxInPara) (q : ParagraphInfo), q ∈ analyzeParagraphs ps → q.text ≠ "") := by
  refine ⟨latexAnalyze_map_index, ?_, ?_⟩
  · intro ps
    exact analyzeParagraphsFrom_pairwise ps 0
  · intro ps q h
    exact analyzeParagraphsFrom_text_ne ps 0 q h

/-- Claim C7 (amended, witness): the record produced for a nonempty
paragraph has nonempty text. -/
theorem c7_witness : (analyzeOne 0 (mkDocxPara "a")).text ≠ "" :=
  c7_amended_thm.2.2 [mkDocxPara "a"] (analyzeOne 0 (mkDocxPara "a")) (by decide)

/-- Claim C8 (counterexample): in the LaTeX-to-DOCX renderer, a block whose
assigned kind is `caption` (not `body`) still receives a first-line indent,
and its size is the fixed 0.7 cm (2 character units × 0.35 cm) taken from
the body entry's indent — not the indent multiplied by the style's resolved
font size. -/
theorem c8_counterexample :
    latexFirstLineIndentCm demoCatalog "caption" = some (7 / 10) := by
  simp [latexFirstLineIndentCm, demoCatalog, styleGetQ, startsWithStr, isPrefixL, List.lookup]
  norm_num

/-- Claim C8 (amended): the DOCX selective formatter applies the first-line
indent only when the target type is `body`, computing character units times
the style's own resolved font size in points; the LaTeX-to-DOCX renderer
instead applies it to every non-heading assigned kind, always from the
`body` style entry, at a fixed 0.35 cm per character unit (not scaled by the
font size). -/
theorem c8_amended_thm :
    (∀ (style : StyleDict) (typeId : String), typeId ≠ "body" →
        smartFirstLineIndentPt style typeId = none)
    ∧ (∀ style : StyleDict, (style.lookup "first_line_indent").isSome = true →
        smartFirstLineIndentPt style "body"
          = some (getFontSizePtV ((style.lookup "font_size").getD (SVal.n 12))
              * styleGetQ style "first_line_indent" 0))
    ∧ (∀ (styles : List (String × StyleDict)) (etype : String),
        startsWithStr "heading" etype = true → latexFirstLineIndentCm styles etype = none)
    ∧ (∀ (styles : List (String × StyleDict)) (etype : String),
        startsWithStr "heading" etype = false →
        styleGetQ ((styles.lookup "body").getD []) "first_line_indent" 2 ≠ 0 →
        latexFirstLineIndentCm styles etype
          = some (styleGetQ ((styles.lookup "body").getD []) "first_line_indent" 2 * (35 / 100))) := by
  refine ⟨?_, ?_, ?_, ?_⟩
  · intro style typeId h
    simp [smartFirstLineIndentPt, h]
  · intro style h
    simp [smartFirstLineIndentPt, h]
  · intro styles etype h
    simp [latexFirstLineIndentCm, h]
  · intro styles etype h h2
    simp [latexFirstLineIndentCm, h, h2]

/-- Claim C8 (amended, witness): at the concrete catalog, the `caption` kind
gets the body entry's indent at 0.35 cm per character unit. -/
theorem c8_witness :
    latexFirstLineIndentCm demoCatalog "caption"
      = some (styleGetQ ((demoCatalog.lookup "body").getD []) "first_line_indent" 2 * (35 / 100)) :=
  c8_amended_thm.2.2.2 demoCatalog "caption" (by decide)
    (by simp [styleGetQ, demoCatalog, List.lookup])

/-- Claim C9: an environment-close line whose name is neither skip-entirely
nor transparent and does not match the top frame of the stack (or the stack
is empty) is silently discarded — the whole analyzer state is unchanged and
no block is produced. -/
theorem c9_unmatched_close (st : AState) (i : Nat) (line name : String)
    (hin : st.inDoc = true)
    (hb : containsL beginDocPat (trimL line.data) = false)
    (he : containsL endDocPat (trimL line.data) = false)
    (hc : isCommentLine (trimL line.data) = false)
    (heb : parseEnvBegin (trimL line.data) = none)
    (hee : parseEnvEnd (trimL line.data) = some name)
    (hskip : skipEnvironments.contains name = false)
    (htr : transparentEnvironments.contains name = false)
    (htop : topNameMatches st name = false) :
    stepLine st i line = (st, false) := by
  have hskip2 : ¬(name ∈ skipEnvironments) := by simpa using hskip
  have htr2 : ¬(name ∈ transparentEnvironments) := by simpa using htr
  cases hstk : st.envStack with
  | nil => simp [stepLine, handleEnvEnd, hb, he, hin, hc, heb, hee, hskip2, htr2, hstk]
  | cons top rest =>
    have hne : ¬(top.name = name) := by
      intro hEq
      simp [topNameMatches, hstk, hEq] at htop
    simp [stepLine, handleEnvEnd, hb, he, hin, hc, heb, hee, hskip2, htr2, hstk, hne]

/-- Claim C9 (witness): a stray `\end{itemize}` arriving over an open `quote`
frame leaves the state untouched. -/
theorem c9_witness : stepLine demoC9State 3 "\\end\x7bitemize\x7d" = (demoC9State, false) :=
  c9_unmatched_close demoC9State 3 "\\end\x7bitemize\x7d" "itemize" rfl (by decide) (by decide)
    (by decide) (by decide) (by decide) (by decide) (by decide) (by decide)

/-- Claim C10: a standalone block rendered through the styled-paragraph path
with assigned kind `caption` or `quote` uses the catalog's `body` entry —
even when the catalog holds `caption` or `quote` entries (the demo catalog
does, and they differ from what is used) — while `_add_caption`, used for
the captions attached to table and code blocks, uses the catalog's `caption`
entry. -/
theorem c10_caption_quote_style :
    (∀ styles : List (String × StyleDict),
        paragraphStyleDict styles "caption" = (styles.lookup "body").getD []
        ∧ paragraphStyleDict styles "quote" = (styles.lookup "body").getD []
        ∧ addCaptionStyleDict styles = (styles.lookup "caption").getD [])
    ∧ paragraphStyleDict demoCatalog "caption" ≠ (demoCatalog.lookup "caption").getD []
    ∧ paragraphStyleDict demoCatalog "quote" ≠ (demoCatalog.lookup "quote").getD [] := by
  refine ⟨fun styles => ⟨rfl, rfl, rfl⟩, by decide, by decide⟩

end ToDocx
